import Mathlib

/-!
Verification of the ADB file-manager repository (src/Adb.py, src/main.py).

The Python code is shallowly embedded over `List Char`: each helper below
models the semantics of the corresponding Python `str` operation, and the
functions named after the source symbols (`check_device`, `load_devices`,
`TransferWorker.run`, `refresh_file_list`, `go_up`, `open_item`, …) are
line-by-line translations of the Python bodies, with GUI widget updates
replaced by the values they would display and subprocess results passed
in as explicit inputs.
-/

/-- Python `str.isspace` for the characters relevant to `str.strip()`:
space, tab, newline, carriage return, vertical tab, form feed. -/
def isPySpace (c : Char) : Bool :=
  c = ' ' || c = '\t' || c = '\n' || c = '\r' || c = '\x0b' || c = '\x0c'

/-- Python `s.strip()`: remove leading and trailing whitespace. -/
def pyStrip (s : List Char) : List Char :=
  ((s.dropWhile isPySpace).reverse.dropWhile isPySpace).reverse

/-- Python `s.rstrip(c)` for a single-character argument: remove every
trailing occurrence of `c`. -/
def pyRstrip (c : Char) (s : List Char) : List Char :=
  (s.reverse.dropWhile (· = c)).reverse

/-- Python `s.endswith(c)` for a single character. -/
def pyEndswith (c : Char) (s : List Char) : Bool :=
  s.getLast? = some c

/-- Python `s.split(c)` for a one-character separator: split at every
occurrence of `c`, keeping empty fields; never returns an empty list. -/
def pySplitOn (c : Char) : List Char → List (List Char)
  | [] => [[]]
  | a :: rest =>
    if a = c then
      [] :: pySplitOn c rest
    else
      match pySplitOn c rest with
      | [] => [[a]]
      | g :: gs => (a :: g) :: gs

/-- Python `s.splitlines()` restricted to `'\n'` line boundaries (the form
the tool output uses): no trailing empty field for a trailing newline. -/
def pySplitlines : List Char → List (List Char)
  | [] => []
  | a :: rest =>
    if a = '\n' then
      [] :: pySplitlines rest
    else
      match pySplitlines rest with
      | [] => [[a]]
      | g :: gs => (a :: g) :: gs

/-- Python `s.split()` with no argument: split on whitespace runs,
discarding empty fields. -/
def pySplitWs : List Char → List (List Char)
  | [] => []
  | a :: rest =>
    if isPySpace a then pySplitWs rest
    else
      (a :: rest.takeWhile (fun c => !isPySpace c)) ::
        pySplitWs (rest.dropWhile (fun c => !isPySpace c))
termination_by s => s.length
decreasing_by
  · simp only [List.length_cons]; omega
  · have h : (rest.dropWhile (fun c => !isPySpace c)).length ≤ rest.length :=
      (List.dropWhile_sublist _).length_le
    simp only [List.length_cons]
    omega

/-- Python `sep.join(parts)`. -/
def joinSep (sep : List Char) : List (List Char) → List Char
  | [] => []
  | [x] => x
  | x :: y :: rest => x ++ sep ++ joinSep sep (y :: rest)

/-- `AdbFileExplorer.check_device` (src/Adb.py lines 162-177), the device
list it extracts from the captured stdout of `adb devices`:
`lines = result.stdout.strip().split('\n')[1:]` and
`devices = [line.split('\t')[0] for line in lines if line.strip() and 'device' in line]`. -/
def check_device (stdout : List Char) : List (List Char) :=
  let lines := (pySplitOn '\n' (pyStrip stdout)).drop 1
  (lines.filter (fun line =>
      decide (pyStrip line ≠ []) && decide ("device".data <:+: line))).map
    (fun line => (pySplitOn '\t' line).headD [])

/-- `ADBWindowsGUI.load_devices` (src/main.py lines 75-86), the device list
it extracts from the output of `adb devices`:
`devices = [l.split()[0] for l in out.splitlines() if "\tdevice" in l]`. -/
def load_devices (out : List Char) : List (List Char) :=
  ((pySplitlines out).filter (fun l =>
      decide (('\t' :: "device".data) <:+: l))).map
    (fun l => (pySplitWs l).headD [])

/-- The device list the spec's words describe for C1: the serials (first
tab-separated field) of the post-header lines whose status field (second
tab-separated field) equals `"device"`, in order. -/
def specListDevices (stdout : List Char) : List (List Char) :=
  let lines := (pySplitOn '\n' (pyStrip stdout)).drop 1
  (lines.filter (fun line =>
      (pySplitOn '\t' line).get? 1 = some "device".data)).map
    (fun line => (pySplitOn '\t' line).headD [])

/-- Digit run value, as Python `int` on a plain digit string reads it. -/
def digitsVal (ds : List Char) : Nat :=
  ds.foldl (fun n c => 10 * n + (c.toNat - 48)) 0

/-- Model of `re.search(r'(\d+)%', line)` followed by `int(match.group(1))`
(src/Adb.py lines 52-54): the leftmost maximal digit run that is immediately
followed by `'%'`; `none` when no such match exists.  (With a greedy `\d+`,
a match at a position succeeds exactly when the maximal digit run starting
there is followed by `'%'`, and shorter backtracked runs would require a
digit position to hold `'%'`, which is impossible; scanning positions
inside a failed run reaches the same run end, so skipping to the next
character is equivalent to the regex engine's position-by-position scan.) -/
def parsePercent : List Char → Option Nat
  | [] => none
  | a :: rest =>
    if a.isDigit && ((rest.dropWhile Char.isDigit).headD ' ' = '%') then
      some (digitsVal (a :: rest.takeWhile Char.isDigit))
    else
      parsePercent rest

/-- Single-underscore-grouped digit tail, per Python's `int` literal
grammar (`digit (('_')? digit)*` after the first digit). -/
def digitsTailOk : List Char → Bool
  | [] => true
  | '_' :: c :: rest => c.isDigit && digitsTailOk rest
  | ['_'] => false
  | c :: rest => c.isDigit && digitsTailOk rest

/-- Unsigned part of Python `int(s)`: a nonempty digit string, optionally
with single underscores between digits. -/
def pyIntDigits : List Char → Option Nat
  | [] => none
  | c :: rest =>
    if c.isDigit && digitsTailOk rest then
      some (digitsVal ((c :: rest).filter (fun d => d ≠ '_')))
    else
      none

/-- Python `int(s)` on an already-whitespace-stripped string: optional
sign followed by digits; `none` models the `ValueError` raised otherwise. -/
def pyIntParse : List Char → Option Int
  | '+' :: rest => (pyIntDigits rest).map Int.ofNat
  | '-' :: rest => (pyIntDigits rest).map (fun n => -(n : Int))
  | s => (pyIntDigits s).map Int.ofNat

/-- The two transfer operations of `TransferWorker` (src/Adb.py line 21). -/
inductive Operation where
  | push
  | pull
deriving DecidableEq

/-- Captured result of the `adb shell stat -c%s` sizing subprocess
(src/Adb.py lines 32-33). -/
structure StatResult where
  returncode : Int
  stdout : List Char
  stderr : List Char
deriving DecidableEq

/-- An event emitted by `TransferWorker` over its two Qt signals
(src/Adb.py lines 14-15).  `progress` carries the parsed percent; the
accompanying display string (a float-formatted MB estimate derived from
the same percent and the total size, line 57-59) is presentation only and
is elided. -/
inductive Event where
  | progress (percent : Nat)
  | finished (success : Bool) (message : List Char)
deriving DecidableEq

/-- Whether an event is a terminal (`finished`) outcome. -/
def Event.isTerminal : Event → Bool
  | .finished _ _ => true
  | .progress _ => false

/-- Observable behaviour of one `TransferWorker.run` invocation: the
ordered list of emitted events and whether the transfer subprocess
(`adb push/pull -p`, src/Adb.py lines 41-42) was started. -/
structure RunResult where
  events : List Event
  transferStarted : Bool
deriving DecidableEq

/-- Message of the `ValueError` raised by `int()` on a non-numeric string
(src/Adb.py line 35), caught at line 67 and forwarded as `str(e)`. -/
def valueErrorMsg (s : List Char) : List Char :=
  "invalid literal for int() with base 10: ".data ++ s

/-- The transferring phase of `TransferWorker.run` (src/Adb.py lines
40-66): one `progress` event per output line whose stripped text matches
`(\d+)%`, followed by the single `finished` event chosen by the exit code. -/
def transferPhase (outLines : List (List Char)) (exitCode : Int) : RunResult :=
  { events :=
      (outLines.filterMap
        (fun l => (parsePercent (pyStrip l)).map Event.progress)) ++
      [if exitCode = 0 then
        Event.finished true "Transfer completed successfully.".data
      else
        Event.finished false
          ("Transfer failed with exit code ".data ++ (toString exitCode).data)],
    transferStarted := true }

/-- `TransferWorker.run` (src/Adb.py lines 26-68).  External interactions
are passed in: `pushSize` is the `os.path.getsize` result for a push
(`Except` models the `OSError` caught by the surrounding `except`),
`stat` the sizing subprocess result for a pull, `outLines` the transfer
subprocess output lines, `exitCode` its exit code.  A sizing failure emits
the corresponding `finished` failure and returns before the transfer
subprocess starts; an unparseable stat stdout raises `ValueError`, caught
at line 67. -/
def TransferWorker.run (op : Operation) (pushSize : Except (List Char) Nat)
    (stat : StatResult) (outLines : List (List Char)) (exitCode : Int) :
    RunResult :=
  match op with
  | .push =>
    match pushSize with
    | .error e => { events := [Event.finished false e], transferStarted := false }
    | .ok _ => transferPhase outLines exitCode
  | .pull =>
    if stat.returncode = 0 then
      match pyIntParse (pyStrip stat.stdout) with
      | none =>
        { events := [Event.finished false (valueErrorMsg (pyStrip stat.stdout))],
          transferStarted := false }
      | some _ => transferPhase outLines exitCode
    else
      { events :=
          [Event.finished false ("Failed to get file size: ".data ++ stat.stderr)],
        transferStarted := false }

/-- Whether the sizing step of `TransferWorker.run` succeeds, i.e. the run
reaches the transferring phase. -/
def sizingSucceeds (op : Operation) (pushSize : Except (List Char) Nat)
    (stat : StatResult) : Bool :=
  match op with
  | .push => pushSize.toOption.isSome
  | .pull => stat.returncode = 0 && (pyIntParse (pyStrip stat.stdout)).isSome

/-- The percent values carried by the `progress` events of a run, in
emission order. -/
def progressPercents (r : RunResult) : List Nat :=
  r.events.filterMap (fun e =>
    match e with
    | .progress p => some p
    | .finished _ _ => none)

/-- A directory entry as displayed by `AdbFileExplorer.refresh_file_list`
(src/Adb.py lines 196-205): `is_dir = item.endswith('/')`,
`name = item.rstrip('/')`. -/
structure RemoteEntry where
  name : List Char
  isDir : Bool
deriving DecidableEq

/-- The entry built from one nonblank listing line (src/Adb.py lines
198-199). -/
def parseEntry (item : List Char) : RemoteEntry :=
  { name := pyRstrip '/' item, isDir := pyEndswith '/' item }

/-- `AdbFileExplorer.refresh_file_list` (src/Adb.py lines 191-205), the
list of entries it adds to the file list given the `adb shell ls -p`
subprocess result: on exit code 0 it parses
`result.stdout.strip().split('\n')`, skipping blank items; on a non-zero
exit code the `if result.returncode == 0` guard fails and nothing is
added, leaving the just-cleared (empty) listing. -/
def refresh_file_list (returncode : Int) (stdout : List Char) :
    List RemoteEntry :=
  if returncode = 0 then
    ((pySplitOn '\n' (pyStrip stdout)).filter (fun item => item ≠ [])).map
      parseEntry
  else
    []

/-- `ADBWindowsGUI.refresh_files` (src/main.py lines 92-100), the item
names it adds to the tree: `check_output` raises on a non-zero exit code
and the `except: pass` swallows it, so nothing is added and the cleared
tree stays empty. -/
def refresh_files_main (returncode : Int) (out : List Char) :
    List (List Char) :=
  if returncode = 0 then pySplitlines out else []

/-- Marker for the failure outcome the spec's words prescribe for C3. -/
inductive RemoteListError where
  | remoteListError
deriving DecidableEq

/-- The behaviour the spec's words describe for C3 (`list_directory`):
surface a `RemoteListError` on non-zero exit instead of a listing. -/
def listDirectorySpec (returncode : Int) (stdout : List Char) :
    Except RemoteListError (List RemoteEntry) :=
  if returncode = 0 then
    .ok (((pySplitOn '\n' (pyStrip stdout)).filter
        (fun item => item ≠ [])).map parseEntry)
  else
    .error .remoteListError

/-- `posixpath.dirname` (the `os.path.dirname` of src/Adb.py line 238 on a
POSIX path): everything up to the last `'/'`, with trailing slashes
stripped unless the head is all slashes. -/
def posixDirname (p : List Char) : List Char :=
  let head := (p.reverse.dropWhile (fun c => c ≠ '/')).reverse
  if head ≠ [] && head.any (fun c => c ≠ '/') then
    pyRstrip '/' head
  else
    head

/-- `AdbFileExplorer.go_up` (src/Adb.py lines 236-239): the new
`current_path`. -/
def go_up (current_path : List Char) : List Char :=
  if current_path ≠ "/sdcard".data then posixDirname current_path
  else current_path

/-- `ADBWindowsGUI.go_up` (src/main.py lines 112-115), with
`ANDROID_ROOT = "/sdcard/"`: the new `current_path` is
`"/".join(current_path.rstrip("/").split("/")[:-1]) + "/"` unless the
current path is the root. -/
def go_up_main (current_path : List Char) : List Char :=
  if current_path ≠ "/sdcard/".data then
    joinSep "/".data ((pySplitOn '/' (pyRstrip '/' current_path)).dropLast) ++
      "/".data
  else
    current_path

/-- `ADBWindowsGUI.open_item` (src/main.py lines 102-110): the new
`current_path` after double-clicking entry `name`; `lsOk` is whether the
probing `adb shell ls` of the new path succeeded (on failure the path is
left unchanged and only a message box is shown). -/
def open_item (current_path name : List Char) (lsOk : Bool) : List Char :=
  if lsOk then current_path ++ name ++ "/".data else current_path

/-- `AdbFileExplorer.push_files` (src/Adb.py lines 287-304), abstracted to
the transfers it starts: `workerRunning` is the entry guard
`self.transfer_worker and self.transfer_worker.isRunning()`; `skip f`
models declining the per-file overwrite dialog.  The loop calls
`start_transfer` once per remaining file with no wait or re-check of the
worker between iterations (`start_transfer`, lines 326-334, only creates
the new worker and calls `start()`). -/
def push_files_starts {α : Type} (workerRunning : Bool) (files : List α)
    (skip : α → Bool) : List α :=
  if workerRunning then [] else files.filter (fun f => !skip f)

/-- `ADBWindowsGUI.push_from_pc` (src/main.py lines 149-153): whether a
new transfer thread is started, given whether a transfer thread is
already running and whether a file was chosen in the dialog.  The code
contains no check of any running transfer. -/
def push_from_pc_starts (transferRunning : Bool) (fileChosen : Bool) :
    Bool :=
  fileChosen

/-- In-flight count trace for one `push_files` call: for each started
transfer, how many of the workers started earlier in the same call are
still running at that moment.  `running j` says whether the `j`-th
started worker is still alive then; since the loop never waits on or
joins a started worker, every assignment of `running` is a possible
schedule. -/
def push_files_inflight {α : Type} (workerRunning : Bool) (files : List α)
    (skip : α → Bool) (running : Nat → Bool) : List (α × Nat) :=
  (push_files_starts workerRunning files skip).enum.map
    (fun p => (p.2, ((List.range p.1).filter running).length))

/-! ### Lemmas about the string primitives -/

theorem pySplitOn_ne_nil (c : Char) (l : List Char) : pySplitOn c l ≠ [] := by
  cases l with
  | nil => simp [pySplitOn]
  | cons a rest =>
    simp only [pySplitOn]
    split
    · simp
    · split <;> simp

theorem pySplitOn_append_cons (c : Char) (x y : List Char) :
    pySplitOn c (x ++ c :: y) = pySplitOn c x ++ pySplitOn c y := by
  induction x with
  | nil => simp [pySplitOn]
  | cons a x ih =>
    by_cases hac : a = c
    · subst hac
      simp [pySplitOn, ih]
    · obtain ⟨g, gs, hg⟩ := List.exists_cons_of_ne_nil (pySplitOn_ne_nil c x)
      simp [pySplitOn, if_neg hac, ih, hg]

theorem pySplitOn_of_not_mem {c : Char} {n : List Char} (h : c ∉ n) :
    pySplitOn c n = [n] := by
  induction n with
  | nil => simp [pySplitOn]
  | cons a n ih =>
    have ha : a ≠ c := fun hac => h (hac ▸ List.mem_cons_self a n)
    have hn : c ∉ n := fun hc => h (List.mem_cons_of_mem a hc)
    simp only [pySplitOn, if_neg ha, ih hn]

theorem joinSep_cons_cons (sep a g : List Char) (gs : List (List Char)) :
    joinSep sep ((a ++ g) :: gs) = a ++ joinSep sep (g :: gs) := by
  cases gs <;> simp [joinSep]

theorem joinSep_pySplitOn (c : Char) (s : List Char) :
    joinSep [c] (pySplitOn c s) = s := by
  induction s with
  | nil => simp [pySplitOn, joinSep]
  | cons a s ih =>
    by_cases hac : a = c
    · subst hac
      obtain ⟨g, gs, hg⟩ := List.exists_cons_of_ne_nil (pySplitOn_ne_nil a s)
      simp only [pySplitOn, if_pos rfl, hg, joinSep, List.nil_append]
      rw [← hg, ih]
      simp
    · obtain ⟨g, gs, hg⟩ := List.exists_cons_of_ne_nil (pySplitOn_ne_nil c s)
      simp only [pySplitOn, if_neg hac, hg]
      have : (a :: g) :: gs = ([a] ++ g) :: gs := by simp
      rw [this, joinSep_cons_cons, ← hg, ih]
      simp

theorem pySplitOn_headD {c : Char} {s : List Char} (t : List Char)
    (h : c ∉ s) : (pySplitOn c (s ++ c :: t)).headD [] = s := by
  rw [pySplitOn_append_cons, pySplitOn_of_not_mem h]
  simp

theorem pyRstrip_concat_same (c : Char) (y : List Char) :
    pyRstrip c (y ++ [c]) = pyRstrip c y := by
  simp [pyRstrip, List.dropWhile_cons]

theorem pyRstrip_of_getLast_ne {c d : Char} {y : List Char}
    (h : y.getLast? = some d) (hdc : d ≠ c) : pyRstrip c y = y := by
  obtain ⟨t, ht⟩ : ∃ t, y.reverse = d :: t := by
    have : y.reverse.head? = some d := by simpa using h
    cases hy : y.reverse with
    | nil => simp [hy] at this
    | cons e t => rw [hy] at this; simp at this; exact ⟨t, by rw [this]⟩
  unfold pyRstrip
  rw [ht, List.dropWhile_cons, if_neg (by simpa using hdc), ← ht]
  simp

theorem pyStrip_ne_nil {l : List Char} (h : ∃ x ∈ l, isPySpace x = false) :
    pyStrip l ≠ [] := by
  intro hnil
  obtain ⟨x, hxl, hx⟩ := h
  have h2 : (l.dropWhile isPySpace).reverse.dropWhile isPySpace = [] := by
    have := congrArg List.reverse hnil
    simpa [pyStrip] using this
  have h3 : ∀ y ∈ l.dropWhile isPySpace, isPySpace y = true := by
    intro y hy
    exact List.dropWhile_eq_nil_iff.mp h2 y (List.mem_reverse.mpr hy)
  have hxsplit : x ∈ l.takeWhile isPySpace ++ l.dropWhile isPySpace := by
    rw [List.takeWhile_append_dropWhile]; exact hxl
  rcases List.mem_append.mp hxsplit with hxt | hxd
  · exact absurd (List.mem_takeWhile_imp hxt) (by simp [hx])
  · exact absurd (h3 x hxd) (by simp [hx])

theorem infix_append_cons_iff {c : Char} {p x y : List Char} (hc : c ∉ p) :
    p <:+: (x ++ c :: y) ↔ p <:+: x ∨ p <:+: y := by
  constructor
  · rintro ⟨u, v, huv⟩
    rw [List.append_assoc] at huv
    rcases List.append_eq_append_iff.1 huv with ⟨w, hx, hw⟩ | ⟨w, hu, hw⟩
    · rcases List.append_eq_append_iff.1 hw with ⟨z, hwz, hv⟩ | ⟨z, hp, hz⟩
      · exact Or.inl ⟨u, z, by rw [hx, hwz, List.append_assoc]⟩
      · cases z with
        | nil => exact Or.inl ⟨u, [], by simp [hx, hp]⟩
        | cons z0 z' =>
          have hz0 : z0 = c := by
            have h0 := congrArg List.head? hz
            simp at h0
            exact h0.symm
          exact absurd (hp ▸ List.mem_append_right w
            (hz0 ▸ List.mem_cons_self z0 z')) hc
    · cases w with
      | nil =>
        cases p with
        | nil => exact Or.inr List.nil_infix
        | cons p0 p' =>
          have hp0 : c = p0 := by simpa using congrArg List.head? hw
          exact absurd (hp0 ▸ List.mem_cons_self p0 p') hc
      | cons w0 w' =>
        have hy : y = w' ++ p ++ v := by
          have := congrArg List.tail hw
          simpa [List.append_assoc] using this
        exact Or.inr ⟨w', v, hy.symm⟩
  · rintro (⟨u, v, h⟩ | ⟨u, v, h⟩)
    · exact ⟨u, v ++ c :: y, by rw [← h]; simp⟩
    · exact ⟨x ++ c :: u, v, by rw [← h]; simp⟩

theorem cons_infix_append_cons_iff {c : Char} {q x y : List Char}
    (hx : c ∉ x) (hy : c ∉ y) :
    (c :: q) <:+: (x ++ c :: y) ↔ q <+: y := by
  constructor
  · rintro ⟨u, v, huv⟩
    rw [List.append_assoc] at huv
    rcases List.append_eq_append_iff.1 huv with ⟨w, hxw, hw⟩ | ⟨w, hu, hw⟩
    · cases w with
      | nil =>
        have : q ++ v = y := by simpa using hw
        exact ⟨v, this⟩
      | cons w0 w' =>
        have hw0 : w0 = c := by
          have h0 := congrArg List.head? hw
          simp at h0
          exact h0.symm
        exact absurd (hxw ▸ List.mem_append_right u
          (hw0 ▸ List.mem_cons_self w0 w')) hx
    · cases w with
      | nil =>
        have h0 : q ++ v = y := by
          have h1 := hw
          simp at h1
          exact h1.symm
        exact ⟨v, h0⟩
      | cons w0 w' =>
        have hcw : c = w0 := by simpa using congrArg List.head? hw
        have : y = w' ++ (c :: q) ++ v := by
          have := congrArg List.tail hw
          simpa [List.append_assoc] using this
        exact absurd (this ▸ List.mem_append_left v
          (List.mem_append_right w' (List.mem_cons_self c q))) hy
  · rintro ⟨v, hv⟩
    exact ⟨x, v, by rw [← hv]; simp⟩

theorem pySplitWs_headD {s : List Char} (b : Char) (t : List Char)
    (hs : s ≠ []) (hsp : ∀ c ∈ s, isPySpace c = false)
    (hb : isPySpace b = true) : (pySplitWs (s ++ b :: t)).headD [] = s := by
  cases s with
  | nil => exact absurd rfl hs
  | cons a s' =>
    have ha : isPySpace a = false := hsp a (List.mem_cons_self a s')
    have hs' : ∀ c ∈ s', (fun c => !isPySpace c) c = true := by
      intro c hc
      simp [hsp c (List.mem_cons_of_mem a hc)]
    rw [List.cons_append, pySplitWs]
    simp [ha, List.takeWhile_append_of_pos hs', List.takeWhile_cons, hb]

theorem dropWhile_head?_not {α : Type} (p : α → Bool) (l : List α) :
    ∀ a, (l.dropWhile p).head? = some a → p a = false := by
  induction l with
  | nil =>
    intro a h
    simp at h
  | cons x l ih =>
    intro a h
    rw [List.dropWhile_cons] at h
    by_cases hx : p x = true
    · exact ih a (by simpa [hx] using h)
    · have hxa : x = a := by simpa [hx] using h
      subst hxa
      simpa using hx

theorem pyRstrip_getLast_ne (c : Char) (s : List Char) :
    (pyRstrip c s).getLast? ≠ some c := by
  unfold pyRstrip
  rw [List.getLast?_reverse]
  intro h
  have hc := dropWhile_head?_not (fun x => x = c) s.reverse c h
  simp at hc

theorem pyRstrip_append_trailing (c : Char) (s : List Char) :
    ∃ k, pyRstrip c s ++ List.replicate k c = s := by
  have h1 : s.reverse.takeWhile (fun x => x = c) =
      List.replicate (s.reverse.takeWhile (fun x => x = c)).length c := by
    apply List.eq_replicate_of_mem
    intro b hb
    have h3 := List.mem_takeWhile_imp hb
    simpa using h3
  refine ⟨(s.reverse.takeWhile (fun x => x = c)).length, ?_⟩
  have h2 : (s.reverse.takeWhile (fun x => x = c)).reverse =
      List.replicate (s.reverse.takeWhile (fun x => x = c)).length c := by
    conv_lhs => rw [h1]
    exact List.reverse_replicate _ _
  rw [pyRstrip, ← h2, ← List.reverse_append,
    List.takeWhile_append_dropWhile, List.reverse_reverse]

/-! ### Device-row machinery for the enumeration output -/

/-- One `<serial>\t<status>` data line of the device-enumeration output. -/
def rowChars (r : List Char × List Char) : List Char := r.1 ++ '\t' :: r.2

/-- A well-formed device row: nonempty whitespace-free serial that does
not itself contain `"device"` as a substring, and one of the tool's three
status words. -/
def goodRow (r : List Char × List Char) : Prop :=
  r.1 ≠ [] ∧ (∀ c ∈ r.1, isPySpace c = false) ∧
    ¬ ("device".data <:+: r.1) ∧
    (r.2 = "device".data ∨ r.2 = "offline".data ∨ r.2 = "unauthorized".data)

instance (r : List Char × List Char) : Decidable (goodRow r) := by
  unfold goodRow
  infer_instance

theorem filter_map_rows (P : List Char → Bool) (f : List Char → List Char)
    (rows : List (List Char × List Char))
    (h : ∀ r ∈ rows, P (rowChars r) = decide (r.2 = "device".data) ∧
      f (rowChars r) = r.1) :
    ((rows.map rowChars).filter P).map f =
      (rows.filter (fun r => decide (r.2 = "device".data))).map Prod.fst := by
  induction rows with
  | nil => simp
  | cons r rows ih =>
    obtain ⟨hP, hf⟩ := h r (List.mem_cons_self r rows)
    have ih' := ih (fun r' hr' => h r' (List.mem_cons_of_mem r hr'))
    by_cases hst : r.2 = "device".data
    · simp [List.filter_cons, hP, hst, hf, ih']
    · simp [List.filter_cons, hP, hst, ih']

theorem serial_no_tab {s : List Char} (hsp : ∀ c ∈ s, isPySpace c = false) :
    ('\t' : Char) ∉ s := by
  intro hm
  have h1 := hsp '\t' hm
  have h2 : isPySpace '\t' = true := by decide
  rw [h2] at h1
  exact Bool.true_eq_false.mp h1

theorem adbRow_pred {s st : List Char} (hsd : ¬ ("device".data <:+: s))
    (hst : st = "device".data ∨ st = "offline".data ∨
      st = "unauthorized".data) :
    (decide (pyStrip (s ++ '\t' :: st) ≠ []) &&
        decide ("device".data <:+: (s ++ '\t' :: st))) =
      decide (st = "device".data) := by
  have htab : ('\t' : Char) ∉ "device".data := by decide
  have hstrip : pyStrip (s ++ '\t' :: st) ≠ [] := by
    apply pyStrip_ne_nil
    rcases hst with h | h | h <;> subst h
    · exact ⟨'d', List.mem_append_right s (by decide), by decide⟩
    · exact ⟨'o', List.mem_append_right s (by decide), by decide⟩
    · exact ⟨'u', List.mem_append_right s (by decide), by decide⟩
  have hinf : ("device".data <:+: (s ++ '\t' :: st)) ↔ st = "device".data := by
    rw [infix_append_cons_iff htab]
    constructor
    · rintro (h | h)
      · exact absurd h hsd
      · rcases hst with h2 | h2 | h2 <;> subst h2
        · rfl
        · exact absurd h (by decide)
        · exact absurd h (by decide)
    · intro h
      subst h
      exact Or.inr (List.infix_refl _)
  rw [decide_eq_true hstrip, Bool.true_and]
  exact decide_eq_decide.mpr hinf

theorem mainRow_pred {s st : List Char} (hsp : ∀ c ∈ s, isPySpace c = false)
    (hst : st = "device".data ∨ st = "offline".data ∨
      st = "unauthorized".data) :
    decide (('\t' :: "device".data) <:+: (s ++ '\t' :: st)) =
      decide (st = "device".data) := by
  have hts : ('\t' : Char) ∉ s := serial_no_tab hsp
  have htst : ('\t' : Char) ∉ st := by
    rcases hst with h | h | h <;> subst h <;> decide
  apply decide_eq_decide.mpr
  rw [cons_infix_append_cons_iff hts htst]
  constructor
  · intro h
    rcases hst with h2 | h2 | h2 <;> subst h2
    · rfl
    · exact absurd h (by decide)
    · exact absurd h (by decide)
  · intro h
    subst h
    exact List.prefix_refl _

/-! ### C1: device enumeration -/

/-- C1, counterexample.  The claim says only lines whose status field
equals `"device"` contribute a serial, and that `"offline"` lines
contribute none.  `check_device` actually tests `'device' in line`
(substring containment over the whole line), so an offline device whose
serial contains `"device"` is returned: on the output
`"List of devices attached\nmydevice123\toffline"` the code returns
`["mydevice123"]`, while the claim's reading (`specListDevices`) returns
`[]`. -/
theorem c1_counterexample :
    check_device "List of devices attached\nmydevice123\toffline".data =
        ["mydevice123".data] ∧
      specListDevices "List of devices attached\nmydevice123\toffline".data
        = [] := by
  constructor
  · decide
  · decide

/-- C1 (amended): the membership test is substring containment —
`'device' in line` in Adb.py's `check_device`, `'\t' + 'device' in line`
in main.py's `load_devices` — not equality of the status field.  For
every device-enumeration output whose post-header lines are
`<serial>\t<status>` rows with a nonempty, whitespace-free serial not
itself containing `"device"` and a status among
`device`/`offline`/`unauthorized`, both functions return exactly the
serials of the status-`"device"` rows, preserving their order; the header
line contributes no device. -/
theorem c1_substring_device_filter (stdout out header : List Char)
    (rows : List (List Char × List Char))
    (hA : (pySplitOn '\n' (pyStrip stdout)).drop 1 = rows.map rowChars)
    (hB : pySplitlines out = header :: rows.map rowChars)
    (hh : ('\t' : Char) ∉ header) (hrows : ∀ r ∈ rows, goodRow r) :
    check_device stdout =
        (rows.filter (fun r => decide (r.2 = "device".data))).map Prod.fst ∧
      load_devices out =
        (rows.filter (fun r => decide (r.2 = "device".data))).map Prod.fst := by
  constructor
  · show (((pySplitOn '\n' (pyStrip stdout)).drop 1).filter _).map _ = _
    rw [hA]
    apply filter_map_rows
    rintro ⟨s, st⟩ hr
    obtain ⟨hs, hsp, hsd, hst⟩ := hrows _ hr
    exact ⟨adbRow_pred hsd hst,
      pySplitOn_headD st (serial_no_tab hsp)⟩
  · show ((pySplitlines out).filter _).map _ = _
    rw [hB]
    have hhd : decide (('\t' :: "device".data) <:+: header) = false := by
      apply decide_eq_false
      intro hinf
      exact hh (hinf.sublist.subset (List.mem_cons_self '\t' "device".data))
    rw [List.filter_cons, hhd]
    simp only [Bool.false_eq_true, if_neg (by simp : ¬False)]
    apply filter_map_rows
    rintro ⟨s, st⟩ hr
    obtain ⟨hs, hsp, hsd, hst⟩ := hrows _ hr
    have hspace : isPySpace '\t' = true := by decide
    exact ⟨mainRow_pred hsp hst, pySplitWs_headD '\t' st hs hsp hspace⟩

/-- C1 witness: the spec's scenario output, with the header line the tool
actually prints.  Both variants return exactly `["ABC123"]`. -/
theorem c1_substring_device_filter_witness :
    check_device "List of devices attached\nABC123\tdevice\nDEF456\toffline".data
        = ["ABC123".data] ∧
      load_devices "List of devices attached\nABC123\tdevice\nDEF456\toffline".data
        = ["ABC123".data] := by
  have h := c1_substring_device_filter
    "List of devices attached\nABC123\tdevice\nDEF456\toffline".data
    "List of devices attached\nABC123\tdevice\nDEF456\toffline".data
    "List of devices attached".data
    [("ABC123".data, "device".data), ("DEF456".data, "offline".data)]
    (by decide) (by decide) (by decide) (by decide)
  exact ⟨h.1.trans (by decide), h.2.trans (by decide)⟩

/-! ### C2: progress percent values -/

theorem progressPercents_transferPhase (outLines : List (List Char))
    (exitCode : Int) :
    progressPercents (transferPhase outLines exitCode) =
      outLines.filterMap (fun l => parsePercent (pyStrip l)) := by
  unfold progressPercents transferPhase
  rw [List.filterMap_append, List.filterMap_filterMap]
  have h2 : ∀ e : Event,
      (fun e => match e with
        | .progress p => some p
        | .finished _ _ => none) e =
      (fun e : Event => match e with
        | .progress p => some p
        | .finished _ _ => none) e := fun _ => rfl
  have h1 : (List.filterMap (fun e : Event => match e with
      | .progress p => some p
      | .finished _ _ => none)
      [if exitCode = 0 then
          Event.finished true "Transfer completed successfully.".data
        else Event.finished false
          ("Transfer failed with exit code ".data ++
            (toString exitCode).data)]) = [] := by
    split <;> simp [List.filterMap]
  rw [h1, List.append_nil]
  congr 1
  funext l
  cases parsePercent (pyStrip l) <;> rfl

theorem progressPercents_run (op : Operation)
    (pushSize : Except (List Char) Nat) (stat : StatResult)
    (outLines : List (List Char)) (exitCode : Int) :
    progressPercents (TransferWorker.run op pushSize stat outLines exitCode)
      = if sizingSucceeds op pushSize stat then
          outLines.filterMap (fun l => parsePercent (pyStrip l))
        else [] := by
  cases op with
  | push =>
    cases pushSize with
    | error e => simp [TransferWorker.run, sizingSucceeds, progressPercents,
        Except.toOption, List.filterMap]
    | ok n => simp [TransferWorker.run, sizingSucceeds, Except.toOption,
        progressPercents_transferPhase]
  | pull =>
    by_cases hrc : stat.returncode = 0
    · cases hp : pyIntParse (pyStrip stat.stdout) with
      | none => simp [TransferWorker.run, sizingSucceeds, hrc, hp,
          progressPercents, List.filterMap]
      | some k => simp [TransferWorker.run, sizingSucceeds, hrc, hp,
          progressPercents_transferPhase]
    · simp [TransferWorker.run, sizingSucceeds, hrc, progressPercents,
        List.filterMap]

/-- C2, counterexample.  The claim says every emitted percent lies in
[0,100].  The code emits the regex-matched integer with no clamping: on a
push whose subprocess prints the line `"150%"`, the task emits
`progress 150`, and `150 > 100`. -/
theorem c2_counterexample :
    Event.progress 150 ∈
        (TransferWorker.run .push (.ok 100) ⟨0, [], []⟩ ["150%".data]
          0).events ∧
      100 < 150 := by
  constructor
  · decide
  · decide

/-- C2 (amended): the task emits exactly the integers matched by
`(\d+)%` in the stripped subprocess output lines, in order, with no
clamping and no monotonicity enforcement; the emitted percents therefore
lie in [0,100] and are non-decreasing exactly when the matched values in
the tool's output are. -/
theorem c2_percent_passthrough (op : Operation)
    (pushSize : Except (List Char) Nat) (stat : StatResult)
    (outLines : List (List Char)) (exitCode : Int)
    (hbound : ∀ p ∈ outLines.filterMap (fun l => parsePercent (pyStrip l)),
      p ≤ 100)
    (hmono : List.Chain' (· ≤ ·)
      (outLines.filterMap (fun l => parsePercent (pyStrip l)))) :
    (∀ q ∈ progressPercents
        (TransferWorker.run op pushSize stat outLines exitCode), q ≤ 100) ∧
      List.Chain' (· ≤ ·) (progressPercents
        (TransferWorker.run op pushSize stat outLines exitCode)) ∧
      progressPercents (TransferWorker.run op pushSize stat outLines exitCode)
        = (if sizingSucceeds op pushSize stat then
            outLines.filterMap (fun l => parsePercent (pyStrip l))
          else []) := by
  have h := progressPercents_run op pushSize stat outLines exitCode
  refine ⟨?_, ?_, h⟩
  · intro q hq
    rw [h] at hq
    by_cases hs : sizingSucceeds op pushSize stat
    · exact hbound q (by simpa [hs] using hq)
    · simp [hs] at hq
  · rw [h]
    by_cases hs : sizingSucceeds op pushSize stat
    · simpa [hs] using hmono
    · simp [hs]

/-- C2 witness: the spec's push scenario; hypotheses hold and the emitted
percents are `[50, 100]`. -/
theorem c2_percent_passthrough_witness :
    progressPercents (TransferWorker.run .push (.ok 1000000) ⟨0, [], []⟩
        ["[ 50%] /sdcard/f".data, "[100%] /sdcard/f".data] 0) = [50, 100] := by
  have he : (["[ 50%] /sdcard/f".data, "[100%] /sdcard/f".data] :
        List (List Char)).filterMap (fun l => parsePercent (pyStrip l))
      = [50, 100] := by decide
  have h := c2_percent_passthrough .push (.ok 1000000) ⟨0, [], []⟩
    ["[ 50%] /sdcard/f".data, "[100%] /sdcard/f".data] 0
    (by decide)
    (by
      rw [he]
      exact List.chain'_cons.mpr ⟨by norm_num, List.chain'_singleton _⟩)
  exact h.2.2.trans (by decide)

/-! ### C3: non-zero exit of the directory listing -/

/-- C3, counterexample.  The claim says a non-zero exit of the listing
tool surfaces a `RemoteListError` rather than silently treating the
listing as empty.  In the code, Adb.py's `refresh_file_list` simply skips
its `returncode == 0` branch, producing the same empty listing an empty
directory produces (and `listDirectorySpec`, the spec's reading, would
instead be an error). -/
theorem c3_counterexample :
    refresh_file_list 1 "foo.txt\nbar/\n".data = [] ∧
      refresh_file_list 1 "foo.txt\nbar/\n".data = refresh_file_list 0 [] ∧
      listDirectorySpec 1 "foo.txt\nbar/\n".data =
        Except.error RemoteListError.remoteListError := by
  refine ⟨by decide, by decide, ?_⟩
  rfl

/-- C3 (amended): on a non-zero exit code the listing operation in both
variants silently yields no entries — indistinguishable from an empty
directory — and the caller does not crash (the handlers swallow the
condition: Adb.py's guard skips the parse, main.py's `except: pass`
swallows the `CalledProcessError`). -/
theorem c3_nonzero_exit_silent_empty (rc : Int) (stdout out : List Char)
    (hrc : rc ≠ 0) :
    refresh_file_list rc stdout = [] ∧
      refresh_file_list rc stdout = refresh_file_list 0 [] ∧
      refresh_files_main rc out = [] := by
  refine ⟨?_, ?_, ?_⟩ <;>
    simp [refresh_file_list, refresh_files_main, hrc, pyStrip, pySplitOn,
      List.filter]

/-- C3 witness: exit code 1. -/
theorem c3_nonzero_exit_silent_empty_witness :
    refresh_file_list 1 "foo.txt".data = [] ∧
      refresh_file_list 1 "foo.txt".data = refresh_file_list 0 [] ∧
      refresh_files_main 1 "foo.txt".data = [] :=
  c3_nonzero_exit_silent_empty 1 "foo.txt".data "foo.txt".data (by decide)

/-! ### C4: single transfer at a time -/

/-- C4, counterexample.  The claim says initiating a push or pull never
starts a second worker while a previous one is in flight, including for a
multi-file action.  In main.py, `push_from_pc` starts a transfer thread
with no check at all, so it starts one (`= true`) even while a transfer
is running; in Adb.py, one `push_files` action over two files calls
`start_transfer` twice with no wait between them, so under the schedule
where the first worker is still alive (`running = fun _ => true`) the
second start happens with one worker in flight (`(1, 1)` below). -/
theorem c4_counterexample :
    push_from_pc_starts true true = true ∧
      push_files_starts false [0, 1] (fun _ => false) = [0, 1] ∧
      push_files_inflight false [0, 1] (fun _ => false) (fun _ => true) =
        [(0, 0), (1, 1)] := by
  refine ⟨rfl, ?_, ?_⟩ <;> decide

/-- C4 (amended): Adb.py's guard blocks a *new push/pull action* while
the stored worker is running (no transfer starts), but within one
multi-file action one worker is started per non-skipped file without
waiting, so when at least two files pass the overwrite dialog some start
occurs with a previous worker of the same action still in flight; main.py
checks nothing and always starts a thread for a chosen file. -/
theorem c4_per_action_guard_only (files : List Nat) (skip : Nat → Bool)
    (h2 : 2 ≤ (files.filter (fun f => !skip f)).length) :
    push_files_starts true files skip = [] ∧
      push_files_starts false files skip = files.filter (fun f => !skip f) ∧
      (∃ pr ∈ push_files_inflight false files skip (fun _ => true),
        1 ≤ pr.2) ∧
      (∀ r : Bool, push_from_pc_starts r true = true) := by
  refine ⟨by simp [push_files_starts], by simp [push_files_starts], ?_,
    fun r => rfl⟩
  obtain ⟨a, b, t, hg⟩ : ∃ a b t,
      files.filter (fun f => !skip f) = a :: b :: t := by
    cases hf : files.filter (fun f => !skip f) with
    | nil => rw [hf] at h2; simp at h2
    | cons a rest =>
      cases rest with
      | nil => rw [hf] at h2; simp at h2
      | cons b t => exact ⟨a, b, t, rfl⟩
  have hs : push_files_starts false files skip = a :: b :: t := by
    simpa [push_files_starts] using hg
  refine ⟨(b, 1), ?_, le_refl 1⟩
  unfold push_files_inflight
  rw [hs, List.enum_cons, List.enumFrom_cons, List.map_cons, List.map_cons]
  have hone : (((List.range 1).filter (fun _ => true)).length : Nat) = 1 := by
    decide
  rw [hone]
  exact List.mem_cons_of_mem _ (List.mem_cons_self _ _)

/-- C4 witness: two files, none skipped. -/
theorem c4_per_action_guard_only_witness :
    push_files_starts false [7, 8] (fun _ => false) = [7, 8] ∧
      ∃ pr ∈ push_files_inflight false [7, 8] (fun _ => false)
        (fun _ => true), 1 ≤ pr.2 := by
  have h := c4_per_action_guard_only [7, 8] (fun _ => false) (by decide)
  exact ⟨h.2.1.trans (by decide), h.2.2.1⟩

/-! ### C9: "go up" at the root -/

/-- C9: `go_up` at the fixed root is a no-op in both variants: Adb.py
guards on `current_path != '/sdcard'` and main.py on
`current_path != ANDROID_ROOT` (`"/sdcard/"`), so at the root the path is
left unchanged and navigation cannot move above it. -/
theorem c9_go_up_root_noop :
    go_up "/sdcard".data = "/sdcard".data ∧
      go_up_main "/sdcard/".data = "/sdcard/".data := by
  constructor <;> decide

/-! ### C10: open-then-up round trip in main.py -/

/-- C10, counterexample.  Take `p = "/"` (absolute, ends in a single
`'/'`) and `n = "sdcard"` (nonempty, no `'/'`).  `open_item` sets the
path to `"/sdcard/"`, which is exactly `ANDROID_ROOT`, so `go_up` is a
no-op and the path stays `"/sdcard/"` instead of returning to `"/"`. -/
theorem c10_counterexample :
    ("/".data : List Char) = [] ++ ['/'] ∧
      ([] : List Char).getLast? ≠ some '/' ∧
      "/".data.head? = some '/' ∧
      "sdcard".data ≠ [] ∧ '/' ∉ "sdcard".data ∧
      open_item "/".data "sdcard".data true = "/sdcard/".data ∧
      go_up_main (open_item "/".data "sdcard".data true) ≠ "/".data := by
  refine ⟨rfl, by decide, rfl, by decide, by decide, rfl, by decide⟩

/-- C10 (amended): for an absolute path `p` ending in a single `'/'` and
a nonempty separator-free entry name `n`, navigating into `n` and then
going up restores `p` — provided the resulting path `p + n + "/"` is not
`ANDROID_ROOT` itself (when it is, `go_up`'s root guard makes the second
step a no-op). -/
theorem c10_open_then_up (p n q : List Char) (hp : p = q ++ ['/'])
    (hq : q.getLast? ≠ some '/') (habs : p.head? = some '/')
    (hn : n ≠ []) (hns : '/' ∉ n)
    (hroot : p ++ n ++ "/".data ≠ "/sdcard/".data) :
    go_up_main (open_item p n true) = p := by
  have hopen : open_item p n true = p ++ n ++ "/".data := by
    simp [open_item]
  rw [hopen, go_up_main, if_pos hroot]
  obtain ⟨d, hd⟩ : ∃ d, n.getLast? = some d := by
    cases hnl : n.getLast? with
    | none => exact absurd (List.getLast?_eq_none_iff.mp hnl) hn
    | some d => exact ⟨d, rfl⟩
  have hdn : d ∈ n := by
    obtain ⟨ys, hys⟩ := List.getLast?_eq_some_iff.mp hd
    rw [hys]
    exact List.mem_append_right ys (List.mem_cons_self d [])
  have hds : d ≠ '/' := fun hdc => hns (hdc ▸ hdn)
  have hlast : (p ++ n).getLast? = some d := by
    rw [List.getLast?_append, hd]
    rfl
  have hr1 : pyRstrip '/' (p ++ n ++ "/".data) = p ++ n := by
    have : p ++ n ++ "/".data = (p ++ n) ++ ['/'] := rfl
    rw [this, pyRstrip_concat_same, pyRstrip_of_getLast_ne hlast hds]
  rw [hr1, hp]
  have hassoc : (q ++ ['/']) ++ n = q ++ '/' :: n := by simp
  rw [hassoc, pySplitOn_append_cons, pySplitOn_of_not_mem hns,
    List.dropLast_concat]
  have hjoin : joinSep "/".data (pySplitOn '/' q) = q :=
    joinSep_pySplitOn '/' q
  rw [hjoin]

/-- C10 witness: `p = "/sdcard/"`, `n = "DCIM"`. -/
theorem c10_open_then_up_witness :
    go_up_main (open_item "/sdcard/".data "DCIM".data true) =
      "/sdcard/".data :=
  c10_open_then_up "/sdcard/".data "DCIM".data "/sdcard".data
    (by decide) (by decide) (by decide) (by decide) (by decide) (by decide)

/-! ### C5, C6, C8: terminal outcomes of a transfer run -/

theorem transferPhase_events_shape (outLines : List (List Char))
    (exitCode : Int) :
    ∃ fin, (transferPhase outLines exitCode).events =
        (outLines.filterMap
          (fun l => (parsePercent (pyStrip l)).map Event.progress)) ++ [fin]
      ∧ fin.isTerminal = true := by
  unfold transferPhase
  by_cases h : exitCode = 0 <;> simp [h, Event.isTerminal]

theorem mem_progress_part_not_terminal {e : Event}
    {outLines : List (List Char)}
    (h : e ∈ outLines.filterMap
      (fun l => (parsePercent (pyStrip l)).map Event.progress)) :
    e.isTerminal = false := by
  obtain ⟨l, _, he⟩ := List.mem_filterMap.mp h
  cases hp : parsePercent (pyStrip l) with
  | none => rw [hp] at he; simp at he
  | some p =>
    rw [hp] at he
    simp at he
    rw [← he]
    rfl

theorem singleton_terminal_shape (b : Bool) (m : List Char) :
    ([Event.finished b m].countP Event.isTerminal = 1) ∧
      (∃ e, [Event.finished b m].getLast? = some e ∧ e.isTerminal = true ∧
        ∀ e' ∈ [Event.finished b m].dropLast, e'.isTerminal = false) := by
  refine ⟨by simp [List.countP_cons, Event.isTerminal], ?_⟩
  exact ⟨Event.finished b m, rfl, rfl, by simp⟩

theorem transferPhase_terminal_shape (outLines : List (List Char))
    (exitCode : Int) :
    ((transferPhase outLines exitCode).events.countP Event.isTerminal = 1) ∧
      (∃ e, (transferPhase outLines exitCode).events.getLast? = some e ∧
        e.isTerminal = true ∧
        ∀ e' ∈ (transferPhase outLines exitCode).events.dropLast,
          e'.isTerminal = false) := by
  obtain ⟨fin, hevs, hfin⟩ := transferPhase_events_shape outLines exitCode
  rw [hevs]
  constructor
  · rw [List.countP_append]
    have h0 : (outLines.filterMap
        (fun l => (parsePercent (pyStrip l)).map Event.progress)).countP
        Event.isTerminal = 0 := by
      rw [List.countP_eq_zero]
      intro e he
      simp [mem_progress_part_not_terminal he]
    rw [h0]
    simp [List.countP_cons, hfin]
  · refine ⟨fin, ?_, hfin, ?_⟩
    · rw [List.getLast?_concat]
    · rw [List.dropLast_concat]
      intro e' he'
      exact mem_progress_part_not_terminal he'

/-- C5: on every execution path — push sizing failure, pull sizing
subprocess failure, unparseable stat output (the `ValueError` caught by
the `except`), or a completed transfer subprocess — `TransferWorker.run`
emits exactly one terminal (`finished`) event, it is the last event
emitted, and every earlier event is a (non-terminal) progress event. -/
theorem c5_exactly_one_terminal (op : Operation)
    (pushSize : Except (List Char) Nat) (stat : StatResult)
    (outLines : List (List Char)) (exitCode : Int) :
    ((TransferWorker.run op pushSize stat outLines exitCode).events.countP
        Event.isTerminal = 1) ∧
      (∃ e, (TransferWorker.run op pushSize stat outLines
          exitCode).events.getLast? = some e ∧ e.isTerminal = true ∧
        ∀ e' ∈ (TransferWorker.run op pushSize stat outLines
          exitCode).events.dropLast, e'.isTerminal = false) := by
  cases op with
  | push =>
    cases pushSize with
    | error e =>
      show ([Event.finished false e].countP _ = 1) ∧ _
      exact singleton_terminal_shape false e
    | ok n => exact transferPhase_terminal_shape outLines exitCode
  | pull =>
    by_cases hrc : stat.returncode = 0
    · cases hp : pyIntParse (pyStrip stat.stdout) with
      | none =>
        have hrun : TransferWorker.run .pull pushSize stat outLines exitCode
            = { events := [Event.finished false
                  (valueErrorMsg (pyStrip stat.stdout))],
                transferStarted := false } := by
          unfold TransferWorker.run
          rw [if_pos hrc, hp]
        rw [hrun]
        exact singleton_terminal_shape false _
      | some k =>
        have hrun : TransferWorker.run .pull pushSize stat outLines exitCode
            = transferPhase outLines exitCode := by
          unfold TransferWorker.run
          rw [if_pos hrc, hp]
        rw [hrun]
        exact transferPhase_terminal_shape outLines exitCode
    · have hrun : TransferWorker.run .pull pushSize stat outLines exitCode
          = { events := [Event.finished false
                ("Failed to get file size: ".data ++ stat.stderr)],
              transferStarted := false } := by
        unfold TransferWorker.run
        rw [if_neg hrc]
      rw [hrun]
      exact singleton_terminal_shape false _

/-- C6: once the transfer subprocess exits, exit code 0 yields `finished
true` with the success message, and any non-zero exit code yields
`finished false` with a message carrying the exit code (the code captures
no further diagnostic text at that point: stderr was merged into the
consumed stdout stream).  The spec's scenario — push of a 1,000,000-byte
file with output lines containing `"50%"` then `"100%"` and exit 0 — ends
`Completed` with final progress 100. -/
theorem c6_exit_code_outcome (pushSize : Nat) (stat : StatResult)
    (outLines : List (List Char)) (ec : Int) (k : Int)
    (hstat : stat.returncode = 0)
    (hparse : pyIntParse (pyStrip stat.stdout) = some k) :
    ((TransferWorker.run .push (.ok pushSize) stat outLines
        0).events.getLast? = some (Event.finished true
          "Transfer completed successfully.".data)) ∧
      ((TransferWorker.run .pull (.ok pushSize) stat outLines
        0).events.getLast? = some (Event.finished true
          "Transfer completed successfully.".data)) ∧
      (ec ≠ 0 →
        ((TransferWorker.run .push (.ok pushSize) stat outLines
            ec).events.getLast? = some (Event.finished false
              ("Transfer failed with exit code ".data ++
                (toString ec).data))) ∧
        ((TransferWorker.run .pull (.ok pushSize) stat outLines
            ec).events.getLast? = some (Event.finished false
              ("Transfer failed with exit code ".data ++
                (toString ec).data)))) ∧
      (TransferWorker.run .push (.ok 1000000) stat
          ["[ 50%] /sdcard/f".data, "[100%] /sdcard/f".data] 0).events =
        [Event.progress 50, Event.progress 100,
          Event.finished true "Transfer completed successfully.".data] := by
  have hpull : ∀ lines e, TransferWorker.run .pull (.ok pushSize) stat lines e
      = transferPhase lines e := by
    intro lines e
    unfold TransferWorker.run
    rw [if_pos hstat, hparse]
  have hpush : ∀ (n : Nat) lines e,
      TransferWorker.run .push (.ok n) stat lines e
        = transferPhase lines e := fun _ _ _ => rfl
  have hlast : ∀ lines e, (transferPhase lines e).events.getLast? =
      some (if e = 0 then
        Event.finished true "Transfer completed successfully.".data
      else Event.finished false
        ("Transfer failed with exit code ".data ++ (toString e).data)) := by
    intro lines e
    unfold transferPhase
    exact List.getLast?_concat _
  refine ⟨?_, ?_, fun hec => ⟨?_, ?_⟩, ?_⟩
  · rw [hpush, hlast]
    simp
  · rw [hpull, hlast]
    simp
  · rw [hpush, hlast, if_neg hec]
  · rw [hpull, hlast, if_neg hec]
  · rw [hpush]
    show (transferPhase ["[ 50%] /sdcard/f".data, "[100%] /sdcard/f".data]
        0).events = _
    decide

/-- C6 witness: concrete runs at exit codes 0 and 1. -/
theorem c6_exit_code_outcome_witness :
    ((TransferWorker.run .push (.ok 1000000) ⟨0, "9".data, []⟩ []
        0).events.getLast? = some (Event.finished true
          "Transfer completed successfully.".data)) ∧
      ((TransferWorker.run .push (.ok 1000000) ⟨0, "9".data, []⟩ []
        1).events.getLast? = some (Event.finished false
          ("Transfer failed with exit code ".data ++
            (toString (1 : Int)).data))) := by
  have h := c6_exit_code_outcome 1000000 ⟨0, "9".data, []⟩ [] 1 9 rfl
    (by decide)
  exact ⟨h.1, (h.2.2.1 (by decide)).1⟩

/-- C8: for a pull whose sizing fails — stat subprocess exits non-zero, or
its stripped stdout is empty or not parseable as an integer — the run ends
with the single terminal `finished false` event and the transfer
subprocess is never started, so no nonsensical size is ever used. -/
theorem c8_pull_sizing_failure (pushSize : Except (List Char) Nat)
    (stat : StatResult) (outLines : List (List Char)) (ec : Int)
    (h : stat.returncode ≠ 0 ∨ pyIntParse (pyStrip stat.stdout) = none) :
    (TransferWorker.run .pull pushSize stat outLines ec).transferStarted
        = false ∧
      ∃ m, (TransferWorker.run .pull pushSize stat outLines ec).events =
        [Event.finished false m] := by
  by_cases hrc : stat.returncode = 0
  · rcases h with h | h
    · exact absurd hrc h
    · have hrun : TransferWorker.run .pull pushSize stat outLines ec
          = { events := [Event.finished false
                (valueErrorMsg (pyStrip stat.stdout))],
              transferStarted := false } := by
        unfold TransferWorker.run
        rw [if_pos hrc, h]
      rw [hrun]
      exact ⟨rfl, _, rfl⟩
  · have hrun : TransferWorker.run .pull pushSize stat outLines ec
        = { events := [Event.finished false
              ("Failed to get file size: ".data ++ stat.stderr)],
            transferStarted := false } := by
      unfold TransferWorker.run
      rw [if_neg hrc]
    rw [hrun]
    exact ⟨rfl, _, rfl⟩

/-- C8 witness: stat subprocess exit code 1, and an unparseable stat
output with exit code 0. -/
theorem c8_pull_sizing_failure_witness :
    ((TransferWorker.run .pull (.ok 0) ⟨1, [], "boom".data⟩
        ["50%".data] 0).transferStarted = false ∧
      ∃ m, (TransferWorker.run .pull (.ok 0) ⟨1, [], "boom".data⟩
        ["50%".data] 0).events = [Event.finished false m]) ∧
      ((TransferWorker.run .pull (.ok 0) ⟨0, "abc".data, []⟩
        ["50%".data] 0).transferStarted = false ∧
      ∃ m, (TransferWorker.run .pull (.ok 0) ⟨0, "abc".data, []⟩
        ["50%".data] 0).events = [Event.finished false m]) :=
  ⟨c8_pull_sizing_failure (.ok 0) ⟨1, [], "boom".data⟩ ["50%".data] 0
      (Or.inl (by decide)),
    c8_pull_sizing_failure (.ok 0) ⟨0, "abc".data, []⟩ ["50%".data] 0
      (Or.inr (by decide))⟩

/-! ### C7: directory-entry classification -/

/-- C7: a listing line is classified as a directory exactly when it ends
with the path separator `'/'`, and its displayed name is the line with
its trailing separator run removed (`item.rstrip('/')`): the name carries
no trailing separator and restoring the removed separators reproduces the
line; a line not ending in `'/'` is a file named by the whole line.  The
spec's scenario output `"foo.txt\nbar/\n"` yields the file `foo.txt` and
the directory `bar`. -/
theorem c7_trailing_separator_classification (item : List Char)
    (hitem : item ≠ []) :
    ((parseEntry item).isDir = true ↔ item.getLast? = some '/') ∧
      (∃ k, (parseEntry item).name ++ List.replicate k '/' = item) ∧
      (parseEntry item).name.getLast? ≠ some '/' ∧
      (item.getLast? ≠ some '/' → (parseEntry item).name = item) ∧
      refresh_file_list 0 "foo.txt\nbar/\n".data =
        [⟨"foo.txt".data, false⟩, ⟨"bar".data, true⟩] := by
  refine ⟨?_, ?_, ?_, ?_, by decide⟩
  · simp [parseEntry, pyEndswith]
  · exact pyRstrip_append_trailing '/' item
  · exact pyRstrip_getLast_ne '/' item
  · intro hns
    obtain ⟨d, hd⟩ : ∃ d, item.getLast? = some d := by
      cases hl : item.getLast? with
      | none => exact absurd (List.getLast?_eq_none_iff.mp hl) hitem
      | some d => exact ⟨d, rfl⟩
    have hds : d ≠ '/' := fun hc => hns (hc ▸ hd)
    exact pyRstrip_of_getLast_ne hd hds

/-- C7 witness: the directory line `"bar/"`. -/
theorem c7_trailing_separator_classification_witness :
    (parseEntry "bar/".data).isDir = true ∧
      (parseEntry "foo.txt".data).name = "foo.txt".data :=
  ⟨(c7_trailing_separator_classification "bar/".data (by decide)).1.mpr
      (by decide),
    (c7_trailing_separator_classification "foo.txt".data
      (by decide)).2.2.2.1 (by decide)⟩
